import Mathlib

/-!
Verification development for the sc2-monitor API access layer
(`sc2monitor/sc2api.py`, `sc2monitor/model.py`).

The Python source is shallowly embedded: enumerations become inductives,
the retrying request loop, the token manager and the ladder-reconciliation
loop become pure Lean functions over explicit state, network I/O becomes
explicit oracles (a function from the attempt number to that attempt's
response), and Python exceptions become `Except`/`Option` results.
-/

namespace SC2

/-! ## model.py: enumerations -/

/-- `model.Result` (enum members in definition order: Unknown, Win, Loss, Tie). -/
inductive Result where
  | Unknown
  | Win
  | Loss
  | Tie
deriving DecidableEq, Repr

/-- `model.Result.__members__` lookup by exact member name, as performed by
`model.Result[match['decision']]` in `SC2API._get_match_history`; `none`
models the `KeyError` Python raises for an unknown decision string. -/
def Result.byName (s : String) : Option Result :=
  if s = "Unknown" then some .Unknown
  else if s = "Win" then some .Win
  else if s = "Loss" then some .Loss
  else if s = "Tie" then some .Tie
  else none

/-- `model.Race` (Random = 0, Protoss = 1, Terran = 2, Zerg = 3). -/
inductive Race where
  | Random
  | Protoss
  | Terran
  | Zerg
deriving DecidableEq, Repr

/-- `model.Race.get`: a falsy argument (`None` or the empty string) yields
`Random`; otherwise the members are scanned in definition order comparing
the lowercased first letter of the member name with the lowercased first
character of the argument; if none matches, `ValueError` is raised
(modelled as `.error` carrying the offending string). -/
def Race.get (s? : Option String) : Except String Race :=
  match s? with
  | none => .ok .Random
  | some s =>
    match s.data with
    | [] => .ok .Random
    | c :: _ =>
      if c.toLower = 'r' then .ok .Random
      else if c.toLower = 'p' then .ok .Protoss
      else if c.toLower = 't' then .ok .Terran
      else if c.toLower = 'z' then .ok .Zerg
      else .error s

/-- `model.League` (Unranked = -1, Bronze = 0, ..., Grandmaster = 6). -/
inductive League where
  | Unranked
  | Bronze
  | Silver
  | Gold
  | Platinum
  | Diamond
  | Master
  | Grandmaster
deriving DecidableEq, Repr

/-- `model.League.get`: falsy argument yields `Unranked`; otherwise members
are scanned in definition order (Unranked, Bronze, Silver, Gold, Platinum,
Diamond, Master, Grandmaster) comparing lowercased first letters, so `'g'`
resolves to `Gold` (Grandmaster is shadowed); no match raises `ValueError`
(modelled as `.error`). -/
def League.get (s? : Option String) : Except String League :=
  match s? with
  | none => .ok .Unranked
  | some s =>
    match s.data with
    | [] => .ok .Unranked
    | c :: _ =>
      if c.toLower = 'u' then .ok .Unranked
      else if c.toLower = 'b' then .ok .Bronze
      else if c.toLower = 's' then .ok .Silver
      else if c.toLower = 'g' then .ok .Gold
      else if c.toLower = 'p' then .ok .Platinum
      else if c.toLower = 'd' then .ok .Diamond
      else if c.toLower = 'm' then .ok .Master
      else .error s

/-! ## sc2api.py: `SC2API._perform_api_request`, the resilient executor

The loop `for retries in range(10)` is embedded as structural recursion
over the remaining attempt indices `[0, ..., 9]`.  The oracle `resp` gives
the outcome of each HTTP GET: a 504 gateway timeout, a response whose body
is not JSON-decodable (`ContentTypeError`), or a decoded response with its
status.  Decoded payloads are abstracted as `Nat` handles; stamping the
payload with `request_datetime` is not observable here and is dropped.
After the loop Python checks `if retries == 9`, which is true both when
all ten attempts were transient *and* when the tenth attempt broke out of
the loop with a decoded response; the embedding reproduces this. -/

inductive ApiAttempt where
  | timeout
  | undecodable (status : Int)
  | success (status : Int) (payload : Nat)
deriving DecidableEq, Repr

structure ExecOutcome where
  payload : Option Nat
  status : Int
  requestCount : Nat
  retryCount : Nat
  warned : Option String
deriving DecidableEq, Repr

def execGo (resp : Nat → ApiAttempt) :
    List Nat → String → Nat → Nat → ExecOutcome
  | [], error, reqC, retC =>
      -- loop exhausted: `retries == 9`, warn if a transient error was recorded
      { payload := none, status := 0, requestCount := reqC, retryCount := retC,
        warned := if error ≠ "" then some error else none }
  | i :: rest, error, reqC, retC =>
      match resp i with
      | .timeout => execGo resp rest "API timeout" (reqC + 1) (retC + 1)
      | .undecodable _ =>
          execGo resp rest "Unable to decode JSON!" (reqC + 1) (retC + 1)
      | .success st p =>
          if i == 9 then
            -- `break` with `retries == 9`: the post-loop check still fires and
            -- replaces the decoded payload and status with `{}` and 0
            { payload := none, status := 0, requestCount := reqC + 1,
              retryCount := retC, warned := if error ≠ "" then some error else none }
          else
            { payload := some p, status := st, requestCount := reqC + 1,
              retryCount := retC, warned := none }

def performApiRequest (resp : Nat → ApiAttempt) : ExecOutcome :=
  execGo resp (List.range 10) "" 0 0

/-- Response sequence for the first executor scenario of the claim:
attempts 0..8 return 504, attempt 9 returns a decodable 200 body. -/
def nineTimeoutsThen200 (i : Nat) : ApiAttempt :=
  if i < 9 then .timeout else .success 200 77

/-- C1: the claim says 9 gateway timeouts followed by a 200 with a decodable
body yield the decoded payload with status 200 and retry counter 9.  The
code instead returns the empty payload with status 0 (and logs the timeout
warning): the post-loop `retries == 9` exhaustion check also fires when the
tenth attempt succeeded.  The second half of the claim (10 transient
failures give status 0, empty payload and a warning for the last transient
error) does hold.  This theorem records what the code computes on both
response sequences. -/
theorem C1_executor_eval :
    performApiRequest nineTimeoutsThen200 =
      { payload := none, status := 0, requestCount := 10, retryCount := 9,
        warned := some "API timeout" } ∧
    performApiRequest (fun _ => .timeout) =
      { payload := none, status := 0, requestCount := 10, retryCount := 10,
        warned := some "API timeout" } := by
  constructor <;> rfl

/-! ## sc2api.py: `SC2API._get_ladder_data`, the reconciliation engine

The decoded snapshot is embedded as explicit records.  Python dictionary
reads such as `team.get('teamMembers')` become structure fields (the
claims never exercise missing keys).  `data.get('ladderTeams')[idx]` with
a possibly negative `idx` is embedded as `pyGet`, which reproduces
Python's negative-index semantics.  The `try`/`except (IndexError,
AssertionError)` fast path and the forward scan inside the handler are
`fastPath` and `scanFrom`; `entryStep` is one iteration of the
`for meta_data in data.get('ranksAndPools')` loop, threading the mutable
`found_idx`/`used` state, and `reconcileGo`/`getLadderData` run the whole
generator, returning the entries yielded before any terminal error. -/

/-- Python list subscription `l[i]`: non-negative indices are positional,
negative indices count from the end; `none` models `IndexError`. -/
def pyGet {α : Type} (l : List α) (i : Int) : Option α :=
  if 0 ≤ i then l[i.toNat]?
  else if 0 ≤ (l.length : Int) + i then l[((l.length : Int) + i).toNat]?
  else none

structure TeamMember where
  id : Int
  realm : Int
  favoriteRace : Option String
  displayName : String
deriving DecidableEq, Repr

structure TeamEntry where
  teamMembers : List TeamMember
  wins : Int
  losses : Int
  mmr : Int
  joinTimestamp : Int
deriving DecidableEq, Repr

structure RankEntry where
  rank : Int
  mmr : Int
deriving DecidableEq, Repr

structure LadderSnapshot where
  league : Option String
  ranksAndPools : List RankEntry
  ladderTeams : List TeamEntry
deriving DecidableEq, Repr

structure Profile where
  profileID : Int
  realmID : Int
deriving DecidableEq, Repr

/-- The record yielded per MMR entry (`joined` keeps the raw
`joinTimestamp`; `datetime.fromtimestamp` is not observable here). -/
structure ReconEntry where
  mmr : Int
  race : Race
  games : Int
  wins : Int
  losses : Int
  name : String
  joined : Int
  ladder_id : Int
  league : League
deriving DecidableEq, Repr

/-- Errors that terminate the `_get_ladder_data` generator. -/
inductive RecError where
  /-- The no-match branch executes `raise InvalidApiResponse(r.url)`;
  the name `r` is not defined in `_get_ladder_data`, so evaluating the
  argument raises `NameError` instead of `InvalidApiResponse`. -/
  | nameErrorR
  /-- `team.get('teamMembers')[0]` on an empty list inside the forward
  scan: this `IndexError` is outside the `try` block and propagates. -/
  | indexError
  /-- `Race.get`/`League.get` raised `ValueError` on an unknown code. -/
  | valueError (s : String)
deriving DecidableEq, Repr

structure RecState where
  found_idx : Int
  used : List Int
deriving DecidableEq, Repr

/-- The two assertions of the fast path:
`int(player.get('id')) == profileID` and
`int(player.get('realm')) == realmID`. -/
def memberMatches (prof : Profile) (p : TeamMember) : Bool :=
  p.id == prof.profileID && p.realm == prof.realmID

/-- The `try` block: read the team at claimed index `rank - 1` (Python
indexing, so negative values count from the end), read its first member
and check the two assertions; `none` stands for the caught `IndexError`
or `AssertionError`. -/
def fastPath (teams : List TeamEntry) (prof : Profile) (entry : RankEntry) :
    Option (TeamEntry × TeamMember) :=
  match pyGet teams (entry.rank - 1) with
  | none => none
  | some team =>
    match team.teamMembers.head? with
    | none => none
    | some p => if memberMatches prof p then some (team, p) else none

/-- Indices visited by `range(found_idx + 1, len(ladderTeams))`. -/
def scanIdxs (len : Nat) (found_idx : Int) : List Nat :=
  (List.range len).filter (fun i => found_idx < (i : Int))

/-- The forward scan of the `except` handler: visit the indices in order,
read each team's first member (an empty member list raises `IndexError`
here, uncaught), and accept the first index that is not in `used` and
whose first member matches the target profile. -/
def scanFrom (teams : List TeamEntry) (prof : Profile) (used : List Int) :
    List Nat → Except RecError (Option (Nat × TeamEntry × TeamMember))
  | [] => .ok none
  | i :: rest =>
    match teams[i]? with
    | none => .ok none
    | some team =>
      match team.teamMembers.head? with
      | none => .error .indexError
      | some p =>
        if !(used.contains (i : Int)) && memberMatches prof p then
          .ok (some (i, team, p))
        else scanFrom teams prof used rest

/-- Outcome of one loop iteration: the yielded record plus the
reconciliation trace (matched team index, team, member, and whether the
MMR-mismatch warning was logged). -/
structure StepOut where
  out : ReconEntry
  teamIdx : Int
  team : TeamEntry
  member : TeamMember
  mmrWarned : Bool
deriving DecidableEq, Repr

/-- One iteration of the `for meta_data in data.get('ranksAndPools')`
loop.  The fast path appends `rank - 1` to `used` without checking
membership and without touching `found_idx`; the scan requires the index
to be fresh, appends it and advances `found_idx`.  If neither finds a
team the code raises (see `RecError.nameErrorR`).  After a match, if the
entry's mmr differs from the team's, a warning is logged and the team's
value is used (when they are equal the yielded value is the same either
way, so the embedding always yields the team's mmr and records the
warning flag separately). -/
def entryStep (teams : List TeamEntry) (prof : Profile) (ladderID : Int)
    (league : League) (st : RecState) (entry : RankEntry) :
    Except RecError (RecState × StepOut) :=
  let matched : Except RecError (RecState × Int × TeamEntry × TeamMember) :=
    match fastPath teams prof entry with
    | some (team, p) =>
        .ok ({ st with used := st.used ++ [entry.rank - 1] },
             entry.rank - 1, team, p)
    | none =>
        match scanFrom teams prof st.used (scanIdxs teams.length st.found_idx) with
        | .error e => .error e
        | .ok none => .error .nameErrorR
        | .ok (some (i, team, p)) =>
            .ok ({ found_idx := (i : Int), used := st.used ++ [(i : Int)] },
                 (i : Int), team, p)
  match matched with
  | .error e => .error e
  | .ok (st', idx, team, p) =>
    match Race.get p.favoriteRace with
    | .error s => .error (.valueError s)
    | .ok race =>
      .ok (st',
        { out := { mmr := team.mmr, race := race,
                   games := team.wins + team.losses,
                   wins := team.wins, losses := team.losses,
                   name := p.displayName, joined := team.joinTimestamp,
                   ladder_id := ladderID, league := league },
          teamIdx := idx, team := team, member := p,
          mmrWarned := entry.mmr != team.mmr })

def reconcileGo (teams : List TeamEntry) (prof : Profile) (ladderID : Int)
    (league : League) :
    RecState → List RankEntry → List (ReconEntry × Int) →
    List (ReconEntry × Int) × Option RecError
  | _, [], acc => (acc.reverse, none)
  | st, e :: es, acc =>
    match entryStep teams prof ladderID league st e with
    | .error err => (acc.reverse, some err)
    | .ok (st', o) =>
        reconcileGo teams prof ladderID league st' es ((o.out, o.teamIdx) :: acc)

/-- `SC2API._get_ladder_data` after a 200 response: compute the ladder's
league, then run the reconciliation loop with `found_idx = -1` and
`used = []`.  Returns the records yielded (each paired with the matched
team index, the reconciliation trace) before the generator either
finishes (`none`) or dies with an error. -/
def getLadderData (snap : LadderSnapshot) (prof : Profile) (ladderID : Int) :
    List (ReconEntry × Int) × Option RecError :=
  match League.get snap.league with
  | .error s => ([], some (.valueError s))
  | .ok lg =>
      reconcileGo snap.ladderTeams prof ladderID lg
        { found_idx := -1, used := [] } snap.ranksAndPools []

/-! ### Concrete fixtures used by the reconciliation claims -/

def aMember (idv : Int) : TeamMember :=
  { id := idv, realm := 1, favoriteRace := some "Prot", displayName := "player" }

def aTeam (idv m : Int) : TeamEntry :=
  { teamMembers := [aMember idv], wins := 10, losses := 5, mmr := m,
    joinTimestamp := 1000 }

def targetProf : Profile := { profileID := 42, realmID := 1 }

/-- Snapshot whose second MMR entry matches no team: the first entry
consumes the only matching team, the second claims an out-of-range rank
and the scan finds the only candidate already consumed. -/
def noMatchSnap : LadderSnapshot :=
  { league := some "Bronze",
    ranksAndPools := [{ rank := 1, mmr := 3500 }, { rank := 7, mmr := 3500 }],
    ladderTeams := [aTeam 42 3500] }

/-- C2: on a snapshot where neither the fast path nor the scan can place
the second MMR entry, the generator emits the first reconciled entry and
then dies — but with `NameError` (`RecError.nameErrorR`), because the
failure branch executes `raise InvalidApiResponse(r.url)` and the name
`r` is undefined in `_get_ladder_data`; the intended distinct
`InvalidApiResponse` (the spec's `ReconciliationError`) is never
constructed.  The rest of the sequence is indeed aborted. -/
theorem C2_nomatch_eval :
    getLadderData noMatchSnap targetProf 7 =
      ([({ mmr := 3500, race := .Protoss, games := 15, wins := 10,
           losses := 5, name := "player", joined := 1000, ladder_id := 7,
           league := .Bronze }, 0)],
       some RecError.nameErrorR) := by
  rfl

/-- Snapshot with two MMR entries both claiming rank 1 while the single
team's first member matches the target profile. -/
def dupRankSnap : LadderSnapshot :=
  { league := some "Bronze",
    ranksAndPools := [{ rank := 1, mmr := 3500 }, { rank := 1, mmr := 3500 }],
    ladderTeams := [aTeam 42 3500] }

/-- C3 counterexample: the claim says the fast path accepts a team only if
its index has not already been consumed, making the matched indices
pairwise distinct.  On `dupRankSnap` both MMR entries are accepted by the
fast path with team index 0 (the `try` block never consults `used`), so
the matched indices are `[0, 0]`, which is not duplicate-free. -/
theorem C3_cex :
    ((getLadderData dupRankSnap targetProf 7).1.map Prod.snd = [0, 0]) ∧
      ¬ ((getLadderData dupRankSnap targetProf 7).1.map Prod.snd).Nodup := by
  constructor
  · rfl
  · decide

/-- C3 (amended): only the forward scan checks consumption — an index it
accepts is never one already in `used`.  (The fast path performs no such
check, as `C3_cex` shows.) -/
theorem C3_scan_fresh (teams : List TeamEntry) (prof : Profile)
    (used : List Int) (idxs : List Nat) (i : Nat) (tm : TeamEntry)
    (p : TeamMember)
    (h : scanFrom teams prof used idxs = .ok (some (i, tm, p))) :
    used.contains (i : Int) = false := by
  induction idxs with
  | nil => simp [scanFrom] at h
  | cons k rest ih =>
    simp only [scanFrom] at h
    cases hk : teams[k]? with
    | none => simp [hk] at h
    | some team =>
      simp only [hk] at h
      cases hm : team.teamMembers.head? with
      | none => simp [hm] at h
      | some q =>
        simp only [hm] at h
        by_cases hg : (!(used.contains (k : Int)) && memberMatches prof q) = true
        · rw [if_pos hg] at h
          simp only [Except.ok.injEq, Option.some.injEq, Prod.mk.injEq] at h
          obtain ⟨rfl, -, -⟩ := h
          simp only [Bool.and_eq_true, Bool.not_eq_true'] at hg
          exact hg.1
        · rw [if_neg hg] at h
          exact ih h

theorem C3_scan_fresh_witness :
    ([(5 : Int)].contains ((0 : Nat) : Int)) = false :=
  C3_scan_fresh [aTeam 42 3500] targetProf [5] [0] 0 (aTeam 42 3500)
    (aMember 42) (by rfl)

/-- Snapshot where the first MMR entry is matched by the fast path at team
index 1 and the second entry's claimed index is out of range. -/
def watermarkSnap : LadderSnapshot :=
  { league := some "Bronze",
    ranksAndPools := [{ rank := 2, mmr := 3500 }, { rank := 5, mmr := 3500 }],
    ladderTeams := [aTeam 42 3500, aTeam 42 3600] }

/-- C4 counterexample: the claim says the scan covers exactly the indices
strictly greater than the highest index matched so far *by either step*.
On `watermarkSnap` the first entry is fast-path matched at index 1, yet
the second entry's scan still starts at 0 (the fast path never advances
`found_idx`) and accepts index 0, which is not greater than 1. -/
theorem C4_cex :
    ((getLadderData watermarkSnap targetProf 7).1.map Prod.snd = [1, 0]) ∧
      (getLadderData watermarkSnap targetProf 7).2 = none := by
  constructor <;> rfl

/-- A team index the forward scan may accept: in range, first member
present and matching, and not yet consumed. -/
def goodIdx (teams : List TeamEntry) (prof : Profile) (used : List Int)
    (i : Nat) : Prop :=
  ∃ t q, teams[i]? = some t ∧ t.teamMembers.head? = some q ∧
    used.contains (i : Int) = false ∧ memberMatches prof q = true

lemma scanFrom_ok_props (teams : List TeamEntry) (prof : Profile)
    (used : List Int) (idxs : List Nat) (i : Nat) (tm : TeamEntry)
    (p : TeamMember)
    (h : scanFrom teams prof used idxs = .ok (some (i, tm, p))) :
    i ∈ idxs ∧ teams[i]? = some tm ∧ tm.teamMembers.head? = some p ∧
      used.contains (i : Int) = false ∧ memberMatches prof p = true := by
  induction idxs with
  | nil => simp [scanFrom] at h
  | cons k rest ih =>
    simp only [scanFrom] at h
    cases hk : teams[k]? with
    | none => simp [hk] at h
    | some team =>
      simp only [hk] at h
      cases hm : team.teamMembers.head? with
      | none => simp [hm] at h
      | some q =>
        simp only [hm] at h
        by_cases hg : (!(used.contains (k : Int)) && memberMatches prof q) = true
        · rw [if_pos hg] at h
          simp only [Except.ok.injEq, Option.some.injEq, Prod.mk.injEq] at h
          obtain ⟨rfl, rfl, rfl⟩ := h
          simp only [Bool.and_eq_true, Bool.not_eq_true'] at hg
          exact ⟨List.mem_cons_self _ _, hk, hm, hg.1, hg.2⟩
        · rw [if_neg hg] at h
          obtain ⟨h1, h2, h3, h4, h5⟩ := ih h
          exact ⟨List.mem_cons_of_mem _ h1, h2, h3, h4, h5⟩

lemma scanFrom_first (teams : List TeamEntry) (prof : Profile)
    (used : List Int) (idxs : List Nat) (i : Nat) (tm : TeamEntry)
    (p : TeamMember) (hsort : List.Pairwise (· < ·) idxs)
    (h : scanFrom teams prof used idxs = .ok (some (i, tm, p))) :
    ∀ j ∈ idxs, j < i → ¬ goodIdx teams prof used j := by
  induction idxs with
  | nil => simp [scanFrom] at h
  | cons k rest ih =>
    obtain ⟨hk_lt, hrest⟩ := List.pairwise_cons.mp hsort
    simp only [scanFrom] at h
    cases hk : teams[k]? with
    | none => simp [hk] at h
    | some team =>
      simp only [hk] at h
      cases hm : team.teamMembers.head? with
      | none => simp [hm] at h
      | some q =>
        simp only [hm] at h
        by_cases hg : (!(used.contains (k : Int)) && memberMatches prof q) = true
        · rw [if_pos hg] at h
          simp only [Except.ok.injEq, Option.some.injEq, Prod.mk.injEq] at h
          obtain ⟨rfl, -, -⟩ := h
          intro j hj hji
          rcases List.mem_cons.mp hj with hjk | hjr
          · omega
          · exact absurd hji (by have := hk_lt j hjr; omega)
        · rw [if_neg hg] at h
          intro j hj hji
          rcases List.mem_cons.mp hj with hjk | hjr
          · subst hjk
            rintro ⟨t, r, ht, hr, hu, hmm⟩
            rw [hk] at ht
            injection ht with ht; subst ht
            rw [hm] at hr
            injection hr with hr; subst hr
            exact hg (by rw [hu, hmm]; rfl)
          · exact ih hrest h j hjr hji

lemma mem_scanIdxs {len : Nat} {w : Int} {i : Nat} :
    i ∈ scanIdxs len w ↔ w < (i : Int) ∧ i < len := by
  simp [scanIdxs, List.mem_filter, List.mem_range, and_comm]

lemma pairwise_scanIdxs (len : Nat) (w : Int) :
    List.Pairwise (· < ·) (scanIdxs len w) :=
  (List.pairwise_lt_range len).filter _

/-- C4 (amended): whenever the fast path fails, the scan covers exactly
the team indices strictly greater than `found_idx` — the highest index
matched by *previous forward scans* (fast-path matches never advance it)
— accepts the first not-yet-consumed index whose team's first member
matches the target profile, and advances the watermark to that index. -/
theorem C4_scan_watermark (teams : List TeamEntry) (prof : Profile)
    (lid : Int) (lg : League) (st : RecState) (entry : RankEntry)
    (st' : RecState) (o : StepOut)
    (hfast : fastPath teams prof entry = none)
    (h : entryStep teams prof lid lg st entry = .ok (st', o)) :
    ∃ i : Nat, o.teamIdx = (i : Int) ∧ st'.found_idx = (i : Int) ∧
      st'.used = st.used ++ [(i : Int)] ∧
      st.found_idx < (i : Int) ∧ i < teams.length ∧
      goodIdx teams prof st.used i ∧
      ∀ j : Nat, st.found_idx < (j : Int) → j < i →
        ¬ goodIdx teams prof st.used j := by
  rw [entryStep, hfast] at h
  cases hscan : scanFrom teams prof st.used (scanIdxs teams.length st.found_idx) with
  | error e => rw [hscan] at h; simp at h
  | ok r =>
    cases r with
    | none => rw [hscan] at h; simp at h
    | some v =>
      obtain ⟨i, tm, p⟩ := v
      rw [hscan] at h
      dsimp only at h
      cases hr : Race.get p.favoriteRace with
      | error s => simp [hr] at h
      | ok race =>
        simp only [hr, Except.ok.injEq, Prod.mk.injEq] at h
        obtain ⟨hst, ho⟩ := h
        obtain ⟨hmem, hget, hhead, hused, hmatch⟩ :=
          scanFrom_ok_props teams prof st.used _ i tm p hscan
        obtain ⟨hw, hlen⟩ := mem_scanIdxs.mp hmem
        refine ⟨i, ?_, ?_, ?_, hw, hlen, ⟨tm, p, hget, hhead, hused, hmatch⟩, ?_⟩
        · rw [← ho]
        · rw [← hst]
        · rw [← hst]
        · intro j hj hji
          exact scanFrom_first teams prof st.used _ i tm p
            (pairwise_scanIdxs teams.length st.found_idx) hscan j
            (mem_scanIdxs.mpr ⟨hj, by omega⟩) hji

/-- Teams, state and outcome for the C4 witness run: the fast path fails
(rank 5 claims index 4, out of range) and the scan accepts index 1. -/
def c4teams : List TeamEntry := [aTeam 99 3500, aTeam 42 3600]

def c4st0 : RecState := { found_idx := -1, used := [] }

def c4st1 : RecState := { found_idx := 1, used := [(1 : Int)] }

def c4out : StepOut :=
  { out := { mmr := 3600, race := .Protoss, games := 15, wins := 10,
             losses := 5, name := "player", joined := 1000, ladder_id := 7,
             league := .Bronze },
    teamIdx := 1, team := aTeam 42 3600, member := aMember 42,
    mmrWarned := true }

theorem C4_scan_watermark_witness :
    ∃ i : Nat, c4out.teamIdx = (i : Int) ∧ c4st1.found_idx = (i : Int) ∧
      c4st1.used = c4st0.used ++ [(i : Int)] ∧
      c4st0.found_idx < (i : Int) ∧ i < c4teams.length ∧
      goodIdx c4teams targetProf c4st0.used i ∧
      ∀ j : Nat, c4st0.found_idx < (j : Int) → j < i →
        ¬ goodIdx c4teams targetProf c4st0.used j :=
  C4_scan_watermark c4teams targetProf 7 .Bronze c4st0
    { rank := 5, mmr := 3500 } c4st1 c4out rfl rfl

/-- C6: once a team is matched for an MMR entry (by either path), the
yielded record's mmr is the matched team's own value, and the
data-quality warning is logged exactly when the entry's claimed mmr
differs from the team's. -/
theorem C6_team_mmr (teams : List TeamEntry) (prof : Profile) (lid : Int)
    (lg : League) (st : RecState) (entry : RankEntry) (st' : RecState)
    (o : StepOut)
    (h : entryStep teams prof lid lg st entry = .ok (st', o)) :
    o.out.mmr = o.team.mmr ∧ (o.mmrWarned = true ↔ entry.mmr ≠ o.team.mmr) := by
  rw [entryStep] at h
  cases hf : fastPath teams prof entry with
  | some v =>
    obtain ⟨team, p⟩ := v
    rw [hf] at h
    dsimp only at h
    cases hr : Race.get p.favoriteRace with
    | error s => simp [hr] at h
    | ok race =>
      simp only [hr, Except.ok.injEq, Prod.mk.injEq] at h
      obtain ⟨-, ho⟩ := h
      subst ho
      exact ⟨rfl, bne_iff_ne⟩
  | none =>
    rw [hf] at h
    cases hscan : scanFrom teams prof st.used (scanIdxs teams.length st.found_idx) with
    | error e => rw [hscan] at h; simp at h
    | ok r =>
      cases r with
      | none => rw [hscan] at h; simp at h
      | some v =>
        obtain ⟨i, team, p⟩ := v
        rw [hscan] at h
        dsimp only at h
        cases hr : Race.get p.favoriteRace with
        | error s => simp [hr] at h
        | ok race =>
          simp only [hr, Except.ok.injEq, Prod.mk.injEq] at h
          obtain ⟨-, ho⟩ := h
          subst ho
          exact ⟨rfl, bne_iff_ne⟩

/-- State and outcome of the C6 witness run, the spec's mismatch scenario:
entry mmr 3500 against team mmr 3600. -/
def c6st : RecState := { found_idx := -1, used := [(0 : Int)] }

def c6out : StepOut :=
  { out := { mmr := 3600, race := .Protoss, games := 15, wins := 10,
             losses := 5, name := "player", joined := 1000, ladder_id := 7,
             league := .Bronze },
    teamIdx := 0, team := aTeam 42 3600, member := aMember 42,
    mmrWarned := true }

theorem C6_team_mmr_witness :
    (entryStep [aTeam 42 3600] targetProf 7 .Bronze
        { found_idx := -1, used := [] } { rank := 1, mmr := 3500 } =
      .ok (c6st, c6out)) ∧
    c6out.out.mmr = c6out.team.mmr ∧
    (c6out.mmrWarned = true ↔
      ({ rank := 1, mmr := 3500 } : RankEntry).mmr ≠ c6out.team.mmr) :=
  ⟨rfl,
   C6_team_mmr [aTeam 42 3600] targetProf 7 .Bronze
     { found_idx := -1, used := [] } { rank := 1, mmr := 3500 } c6st c6out rfl⟩

lemma pyGet_neg_one {α : Type} (l : List α) (h : l ≠ []) :
    pyGet l (-1) = l.getLast? := by
  have hlen : 0 < l.length := List.length_pos.mpr h
  rw [pyGet, if_neg (by omega), if_pos (by omega)]
  have ht : (((l.length : Int)) + (-1)).toNat = l.length - 1 := by omega
  rw [ht, List.getLast?_eq_getElem?]

/-- C10: an MMR entry with `rank == 0` gives claimed index `-1`, which
Python does not treat as out of bounds: the fast path reads the *last*
team of the list, and if its first member matches the target profile the
entry is accepted with `-1` appended to `used`, without the forward scan
running and without a reconciliation failure (`found_idx` is untouched). -/
theorem C10_rank_zero (teams : List TeamEntry) (prof : Profile) (lid : Int)
    (lg : League) (st : RecState) (entry : RankEntry) (tm : TeamEntry)
    (p : TeamMember) (race : Race)
    (hrank : entry.rank = 0)
    (hlast : teams.getLast? = some tm)
    (hp : tm.teamMembers.head? = some p)
    (hm : memberMatches prof p = true)
    (hrace : Race.get p.favoriteRace = .ok race) :
    entryStep teams prof lid lg st entry =
      .ok ({ st with used := st.used ++ [(-1 : Int)] },
        { out := { mmr := tm.mmr, race := race, games := tm.wins + tm.losses,
                   wins := tm.wins, losses := tm.losses,
                   name := p.displayName, joined := tm.joinTimestamp,
                   ladder_id := lid, league := lg },
          teamIdx := -1, team := tm, member := p,
          mmrWarned := entry.mmr != tm.mmr }) := by
  have hne : teams ≠ [] := by
    intro he; rw [he] at hlast; exact Option.noConfusion hlast
  have hidx : entry.rank - 1 = -1 := by omega
  have hfast : fastPath teams prof entry = some (tm, p) := by
    rw [fastPath, hidx, pyGet_neg_one teams hne, hlast]
    simp [hp, hm]
  rw [entryStep, hfast]
  dsimp only
  rw [hrace, hidx]

def c10teams : List TeamEntry := [aTeam 99 3500, aTeam 42 3600]

theorem C10_rank_zero_witness :
    entryStep c10teams targetProf 7 .Bronze { found_idx := -1, used := [] }
        { rank := 0, mmr := 3500 } =
      .ok ({ found_idx := -1, used := [(-1 : Int)] },
        { out := { mmr := 3600, race := .Protoss, games := 15, wins := 10,
                   losses := 5, name := "player", joined := 1000,
                   ladder_id := 7, league := .Bronze },
          teamIdx := -1, team := aTeam 42 3600, member := aMember 42,
          mmrWarned := true }) :=
  C10_rank_zero c10teams targetProf 7 .Bronze { found_idx := -1, used := [] }
    { rank := 0, mmr := 3500 } (aTeam 42 3600) (aMember 42) .Protoss
    rfl rfl rfl rfl rfl

/-! ## sc2api.py: the token manager

`get_access_token` runs its whole body while holding
`self._access_token_lock`, an `asyncio.Lock`; every read and write of the
token state happens inside that critical section, so any cooperative
interleaving of K concurrent callers is equivalent to running the K
critical sections in some sequence, and the callers are identical, so the
sequence order is irrelevant.  The embedding models one caller as a pure
state transition and K concurrent callers as K sequential transitions.
Network results come from an oracle indexed by the running request
counters.  `data.get('access_token')` may be `None`; `None` and `''` are
equally falsy for `not self._access_token` and both are only ever stored
or persisted verbatim, so `None` is collapsed to `""`. -/

structure TMState where
  accessToken : String
  checked : Bool
  refreshCount : Nat
  checkCount : Nat
  persisted : List String
deriving DecidableEq, Repr

structure TMOracle where
  refreshResult : Nat → Option String × Int
  checkResult : Nat → Bool

inductive TMError where
  | invalidApiResponse (status : Int)
deriving DecidableEq, Repr

/-- `SC2API.receive_new_access_token`: one executor call to the OAuth
token endpoint (the oracle gives its `(data.get('access_token'), status)`
outcome); a non-200 status raises `InvalidApiResponse(status)` before any
state is stored; otherwise the token is stored, `checked` is set, and the
token is persisted via `set_config`. -/
def receive_new_access_token (o : TMOracle) (st : TMState) :
    TMState × Except TMError Unit :=
  let r := o.refreshResult st.refreshCount
  let st1 := { st with refreshCount := st.refreshCount + 1 }
  if r.2 ≠ 200 then (st1, .error (.invalidApiResponse r.2))
  else
    let t := r.1.getD ""
    ({ st1 with accessToken := t, checked := true,
                persisted := st1.persisted ++ [t] }, .ok ())

/-- `SC2API.check_access_token`: one GET to the check endpoint; stores
`resp.status == 200` in `checked` and returns it. -/
def check_access_token (o : TMOracle) (st : TMState) (_token : String) :
    TMState × Bool :=
  let ok := o.checkResult st.checkCount
  ({ st with checkCount := st.checkCount + 1, checked := ok }, ok)

/-- `SC2API.get_access_token`: the body of the `async with` lock, with
Python's short-circuit of
`if not token or (not checked and not await check(token))` reproduced:
a falsy token refreshes without checking; a checked token is returned
with no request at all; an unchecked token is validated first and
refreshed only if validation fails.  The returned string is
`self._access_token` as left by the conditional. -/
def get_access_token (o : TMOracle) (st : TMState) :
    TMState × Except TMError String :=
  if st.accessToken = "" then
    match receive_new_access_token o st with
    | (st1, .error e) => (st1, .error e)
    | (st1, .ok _) => (st1, .ok st1.accessToken)
  else if st.checked then (st, .ok st.accessToken)
  else
    match check_access_token o st st.accessToken with
    | (st1, true) => (st1, .ok st1.accessToken)
    | (st1, false) =>
      match receive_new_access_token o st1 with
      | (st2, .error e) => (st2, .error e)
      | (st2, .ok _) => (st2, .ok st2.accessToken)

/-- C8: a token-refresh request completing with a non-200 status makes
the token manager fail with `InvalidApiResponse` carrying that status;
no token is stored or persisted, the failure propagates out of
`get_access_token`, and exactly one refresh request was issued (no retry
at this layer).  Both triggering paths are covered: empty cached token,
and cached-but-unchecked token whose validation fails. -/
theorem C8_refresh_rejected (o : TMOracle) (st : TMState)
    (tok? : Option String) (s : Int) (hs : s ≠ 200) :
    (st.accessToken = "" → o.refreshResult st.refreshCount = (tok?, s) →
      get_access_token o st =
        ({ st with refreshCount := st.refreshCount + 1 },
         .error (.invalidApiResponse s))) ∧
    (st.accessToken ≠ "" → st.checked = false →
      o.checkResult st.checkCount = false →
      o.refreshResult st.refreshCount = (tok?, s) →
      get_access_token o st =
        ({ st with checkCount := st.checkCount + 1, checked := false,
                   refreshCount := st.refreshCount + 1 },
         .error (.invalidApiResponse s))) := by
  constructor
  · intro htok hr
    simp [get_access_token, receive_new_access_token, htok, hr, hs]
  · intro htok hc hcheck hr
    simp [get_access_token, receive_new_access_token, check_access_token,
      htok, hc, hcheck, hr, hs]

def o8 : TMOracle :=
  { refreshResult := fun _ => (none, 403), checkResult := fun _ => false }

def st8a : TMState :=
  { accessToken := "", checked := false, refreshCount := 0, checkCount := 0,
    persisted := [] }

def st8b : TMState :=
  { accessToken := "old", checked := false, refreshCount := 0,
    checkCount := 0, persisted := [] }

theorem C8_refresh_rejected_witness :
    get_access_token o8 st8a =
      ({ st8a with refreshCount := 1 }, .error (.invalidApiResponse 403)) ∧
    get_access_token o8 st8b =
      ({ st8b with checkCount := 1, checked := false, refreshCount := 1 },
       .error (.invalidApiResponse 403)) :=
  ⟨(C8_refresh_rejected o8 st8a none 403 (by decide)).1 rfl rfl,
   (C8_refresh_rejected o8 st8b none 403 (by decide)).2 (by decide) rfl rfl rfl⟩

/-- K lock-serialised callers of `get_access_token` against shared state. -/
def runCallers (o : TMOracle) : Nat → TMState → TMState × List (Except TMError String)
  | 0, st => (st, [])
  | k + 1, st =>
    let r := get_access_token o st
    let rest := runCallers o k r.1
    (rest.1, r.2 :: rest.2)

lemma get_access_token_cached (o : TMOracle) (st : TMState)
    (ht : ¬ st.accessToken = "") (hc : st.checked = true) :
    get_access_token o st = (st, .ok st.accessToken) := by
  rw [get_access_token, if_neg ht, if_pos hc]

lemma runCallers_cached (o : TMOracle) (k : Nat) (st : TMState)
    (ht : ¬ st.accessToken = "") (hc : st.checked = true) :
    runCallers o k st = (st, List.replicate k (.ok st.accessToken)) := by
  induction k with
  | zero => rfl
  | succ n ih =>
    rw [runCallers]
    rw [get_access_token_cached o st ht hc, ih]
    rfl

/-- C9: for any K ≥ 1, K lock-serialised callers of `get_access_token`
starting with no cached token, where the one refresh request returns
status 200 with a non-empty token `t`, issue exactly one request to the
OAuth endpoint (the refresh counter grows by one and the check counter
not at all) and every caller receives the same token `t`. -/
theorem C9_single_flight (o : TMOracle) (st : TMState) (t : String) (K : Nat)
    (hK : 1 ≤ K) (htok : st.accessToken = "")
    (hr : o.refreshResult st.refreshCount = (some t, 200)) (ht : t ≠ "") :
    (runCallers o K st).2 = List.replicate K (.ok t) ∧
    (runCallers o K st).1.refreshCount = st.refreshCount + 1 ∧
    (runCallers o K st).1.checkCount = st.checkCount := by
  obtain ⟨k, rfl⟩ : ∃ k, K = k + 1 := ⟨K - 1, by omega⟩
  have h1 : get_access_token o st =
      ({ st with accessToken := t, checked := true,
                 refreshCount := st.refreshCount + 1,
                 persisted := st.persisted ++ [t] }, .ok t) := by
    simp [get_access_token, receive_new_access_token, htok, hr]
  have h2 := runCallers_cached o k
    { st with accessToken := t, checked := true,
              refreshCount := st.refreshCount + 1,
              persisted := st.persisted ++ [t] } ht rfl
  rw [runCallers]
  dsimp only
  rw [h1, h2]
  exact ⟨rfl, rfl, rfl⟩

def o9 : TMOracle :=
  { refreshResult := fun _ => (some "tok", 200), checkResult := fun _ => true }

def st9 : TMState :=
  { accessToken := "", checked := false, refreshCount := 0, checkCount := 0,
    persisted := [] }

theorem C9_single_flight_witness :
    (runCallers o9 3 st9).2 = List.replicate 3 (.ok "tok") ∧
    (runCallers o9 3 st9).1.refreshCount = st9.refreshCount + 1 ∧
    (runCallers o9 3 st9).1.checkCount = st9.checkCount :=
  C9_single_flight o9 st9 "tok" 3 (by omega) rfl rfl (by decide)

/-! ## sc2api.py: `SC2API._precompile` and `SC2API.parse_profile_url`

The two compiled patterns are

p1: `^https?:\/\/starcraft2.com\/(?:\w+-\w+\/)?profile\/([1-5])\/([1-2])\/(\d+)\/?`
p2: `^https?:\/\/(eu|us).battle.net\/sc2\/\w+\/profile/(\d+)\/([1-2])\/\w+\/?`

both with `re.IGNORECASE`, used through `re.match`, which anchors at the
start only: each pattern matches a *prefix* of the input and anything may
follow.  They are embedded as deterministic character-list parsers:

* literal letters compare case-insensitively (`parseLit`);
* the unescaped dots (in `starcraft2.com` and `.battle.net`) match any
  character except a newline (`anyChar`);
* each `\w+`/`\d+` is a maximal run (`run1`); backtracking to a shorter
  run is impossible because a shorter run leaves a character of the same
  class where the pattern requires one outside it;
* `https?` is disambiguated by the following `:`, and `(eu|us)` by its
  first letter;
* the optional locale group `(?:\w+-\w+\/)?` can succeed only when the
  literal `profile/` cannot (its first word run would have to be
  `profile` followed by `-` instead of `/`), so committing to the greedy
  choice (`optLocale`) is faithful;
* the trailing `\/?` is followed by the end of the pattern, so it never
  affects acceptance or captures and is dropped.

`\w` is embedded as ASCII alphanumerics plus underscore (Python's `\w`
additionally matches non-ASCII word characters, which no URL of the two
grammars contains). -/

def parseLit : List Char → List Char → Option (List Char)
  | [], input => some input
  | _ :: _, [] => none
  | c :: cs, x :: xs => if c.toLower = x.toLower then parseLit cs xs else none

lemma parseLit_self_append (cs rest : List Char) :
    parseLit cs (cs ++ rest) = some rest := by
  induction cs with
  | nil => rfl
  | cons c cs ih => simp [parseLit, ih]

/-- C5 (amended): only missing or empty enumerated codes fall back to the
sentinel (race → `Random`, league → `Unranked`); an unknown *non-empty*
race or league code raises `ValueError`, and the match-history fetcher
looks the decision up by exact enum member name (`Result[...]`), raising
`KeyError` for any unknown decision.  Structural fields such as ids are
read directly and never fall back. -/
theorem C5_enum_mapping :
    (Race.get none = .ok Race.Random ∧ Race.get (some "") = .ok Race.Random ∧
     League.get none = .ok League.Unranked ∧
     League.get (some "") = .ok League.Unranked) ∧
    (∀ (s : String) (c : Char) (cs : List Char), s.data = c :: cs →
       c.toLower ≠ 'r' → c.toLower ≠ 'p' → c.toLower ≠ 't' →
       c.toLower ≠ 'z' → Race.get (some s) = .error s) ∧
    (∀ (s : String) (c : Char) (cs : List Char), s.data = c :: cs →
       c.toLower ≠ 'u' → c.toLower ≠ 'b' → c.toLower ≠ 's' →
       c.toLower ≠ 'g' → c.toLower ≠ 'p' → c.toLower ≠ 'd' →
       c.toLower ≠ 'm' → League.get (some s) = .error s) ∧
    (∀ s : String, s ≠ "Unknown" → s ≠ "Win" → s ≠ "Loss" → s ≠ "Tie" →
       Result.byName s = none) := by
  refine ⟨⟨rfl, rfl, rfl, rfl⟩, ?_, ?_, ?_⟩
  · intro s c cs hs h1 h2 h3 h4
    simp only [Race.get, hs]
    rw [if_neg h1, if_neg h2, if_neg h3, if_neg h4]
  · intro s c cs hs h1 h2 h3 h4 h5 h6 h7
    simp only [League.get, hs]
    rw [if_neg h1, if_neg h2, if_neg h3, if_neg h4, if_neg h5, if_neg h6,
      if_neg h7]
  · intro s h1 h2 h3 h4
    simp only [Result.byName]
    rw [if_neg h1, if_neg h2, if_neg h3, if_neg h4]

theorem C5_enum_mapping_witness :
    (Race.get none = .ok Race.Random ∧ Race.get (some "") = .ok Race.Random ∧
     League.get none = .ok League.Unranked ∧
     League.get (some "") = .ok League.Unranked) ∧
    Race.get (some "Queen") = .error "Queen" ∧
    League.get (some "Iron") = .error "Iron" ∧
    Result.byName "Left" = none :=
  ⟨C5_enum_mapping.1,
   C5_enum_mapping.2.1 "Queen" 'Q' "ueen".data rfl (by decide) (by decide)
     (by decide) (by decide),
   C5_enum_mapping.2.2.1 "Iron" 'I' "ron".data rfl (by decide) (by decide)
     (by decide) (by decide) (by decide) (by decide) (by decide),
   C5_enum_mapping.2.2.2 "Left" (by decide) (by decide) (by decide)
     (by decide)⟩

/-- C5 counterexample: the claim says an unknown enumerated code never
raises an error but falls back to the sentinel.  In fact a non-empty
unknown race or league code raises `ValueError`
(`model.Race.get` / `model.League.get`), and an unknown match decision
raises `KeyError` (`_get_match_history` uses `Result[...]`, exact name
lookup, not the total `Result.get`). -/
theorem C5_cex :
    Race.get (some "Custom") = .error "Custom" ∧
    League.get (some "Iron") = .error "Iron" ∧
    Result.byName "Defeat" = none :=
  ⟨rfl, rfl, rfl⟩

end SC2
